import Mathlib

/- Verification of the cold-email generation service (src/api.py):
   time-windowed rate limiting backed by a flat file, the in-memory email
   archive with pagination and deletion, and the analytics aggregation.
   Python dicts are modelled as insertion-ordered association lists, naive
   datetimes as seconds since the Unix epoch (every calendar day of a naive
   datetime is exactly 86400 seconds), and fallible operations as Except. -/

namespace ColdEmail

/-! ## Association lists modelling Python dicts
    Lookup finds the first matching key, assignment updates the value in
    place (keeping the key position), and new keys are appended at the end,
    exactly as Python dicts preserve insertion order. -/

def getD {α β : Type} [BEq α] : List (α × β) → α → β → β
  | [], _, d => d
  | kv :: rest, k, d => if kv.1 == k then kv.2 else getD rest k d

def containsKey {α β : Type} [BEq α] (m : List (α × β)) (k : α) : Bool :=
  m.any (fun kv => kv.1 == k)

def setKey {α β : Type} [BEq α] : List (α × β) → α → β → List (α × β)
  | [], k, v => [(k, v)]
  | kv :: rest, k, v => if kv.1 == k then (k, v) :: rest else kv :: setKey rest k v

def eraseKey {α β : Type} [BEq α] (m : List (α × β)) (k : α) : List (α × β) :=
  m.filter (fun kv => !(kv.1 == k))

/-! ## Decimal formatting, modelling Python str() on a nonnegative int -/

def natDigitsGo (fuel n : Nat) : List Nat :=
  match fuel with
  | 0 => [n % 10]
  | f + 1 => if n < 10 then [n] else natDigitsGo f (n / 10) ++ [n % 10]

/-- The base-10 digits of n, most significant first (n itself is always
    enough fuel, since the number of digits never exceeds n + 1). -/
def natDigits (n : Nat) : List Nat := natDigitsGo n n

def digitCharM (d : Nat) : Char :=
  if d = 0 then '0' else if d = 1 then '1' else if d = 2 then '2'
  else if d = 3 then '3' else if d = 4 then '4' else if d = 5 then '5'
  else if d = 6 then '6' else if d = 7 then '7' else if d = 8 then '8' else '9'

def natRepr (n : Nat) : String := String.mk ((natDigits n).map digitCharM)

/-- Python str.strip(): drop leading and trailing whitespace. -/
def pyStrip (s : String) : String :=
  String.mk (((s.data.dropWhile Char.isWhitespace).reverse.dropWhile
      Char.isWhitespace).reverse)

/-! ## Calendar arithmetic for naive datetimes
    daysFromCivil and civilFromDays convert between a proleptic Gregorian
    date and a count of days since 1970-01-01 (the standard civil-days
    algorithm), which is how strftime and strptime on naive datetimes are
    modelled over epoch seconds. -/

def daysFromCivil (y m d : Int) : Int :=
  let y2 := if m ≤ 2 then y - 1 else y
  let era := Int.fdiv y2 400
  let yoe := y2 - era * 400
  let mp := if 2 < m then m - 3 else m + 9
  let doy := Int.fdiv (153 * mp + 2) 5 + d - 1
  let doe := yoe * 365 + Int.fdiv yoe 4 - Int.fdiv yoe 100 + doy
  era * 146097 + doe - 719468

def civilFromDays (z0 : Int) : Int × Int × Int :=
  let z := z0 + 719468
  let era := Int.fdiv z 146097
  let doe := z - era * 146097
  let yoe := Int.fdiv (doe - Int.fdiv doe 1460 + Int.fdiv doe 36524 - Int.fdiv doe 146096) 365
  let y := yoe + era * 400
  let doy := doe - (365 * yoe + Int.fdiv yoe 4 - Int.fdiv yoe 100)
  let mp := Int.fdiv (5 * doy + 2) 153
  let d := doy - Int.fdiv (153 * mp + 2) 5 + 1
  let m := mp + (if mp < 10 then 3 else -9)
  (y + (if m ≤ 2 then 1 else 0), m, d)

def pad2 (n : Int) : String :=
  if n < 10 then "0" ++ natRepr n.toNat else natRepr n.toNat

def pad4 (n : Int) : String :=
  if n < 10 then "000" ++ natRepr n.toNat
  else if n < 100 then "00" ++ natRepr n.toNat
  else if n < 1000 then "0" ++ natRepr n.toNat
  else natRepr n.toNat

/-- strftime of the date part: now.strftime of the pattern Y-m-d. -/
def fmtDay (t : Int) : String :=
  let c := civilFromDays (Int.fdiv t 86400)
  pad4 c.1 ++ "-" ++ pad2 c.2.1 ++ "-" ++ pad2 c.2.2

/-- strftime of the hour bucket label: the date followed by the hour of day. -/
def fmtHour (t : Int) : String :=
  fmtDay t ++ "-" ++ pad2 (Int.fdiv (Int.fmod t 86400) 3600)

/-- strftime with minute resolution, the archive timestamp format. -/
def fmtMinute (t : Int) : String :=
  fmtDay t ++ " " ++ pad2 (Int.fdiv (Int.fmod t 86400) 3600) ++ ":"
    ++ pad2 (Int.fdiv (Int.fmod t 3600) 60)

/-! ## strptime models
    CPython strptime compiles the format to a regex: a percent-Y field is
    exactly four digits, percent-m, percent-d, percent-H, percent-M are one
    or two digits (greedy), literals match themselves, the whole string must
    be consumed, and the resulting fields must form a valid calendar date
    (datetime construction validates ranges, raising ValueError otherwise). -/

def takeDigitsUpTo : Nat → List Char → (List Char × List Char)
  | 0, cs => ([], cs)
  | _ + 1, [] => ([], [])
  | n + 1, c :: cs =>
    if c.isDigit then
      let r := takeDigitsUpTo n cs
      (c :: r.1, r.2)
    else ([], c :: cs)

def digitsVal (cs : List Char) : Nat :=
  cs.foldl (fun a c => a * 10 + (c.toNat - 48)) 0

def isLeap (y : Int) : Bool :=
  (Int.emod y 4 == 0 && !(Int.emod y 100 == 0)) || Int.emod y 400 == 0

def daysInMonth (y m : Int) : Int :=
  if m = 2 then (if isLeap y then 29 else 28)
  else if m = 4 ∨ m = 6 ∨ m = 9 ∨ m = 11 then 30
  else 31

def validYMD (y m d : Int) : Bool :=
  decide (1 ≤ y) && decide (y ≤ 9999) && decide (1 ≤ m) && decide (m ≤ 12)
    && decide (1 ≤ d) && decide (d ≤ daysInMonth y m)

/-- Parse the leading Y-m-d part of a label, returning the fields and the
    unconsumed remainder of the string. -/
def parseYMD (cs : List Char) : Option ((Int × Int × Int) × List Char) :=
  let (ys, r1) := takeDigitsUpTo 4 cs
  if ys.length = 4 then
    match r1 with
    | '-' :: r2 =>
      let (ms, r3) := takeDigitsUpTo 2 r2
      if 1 ≤ ms.length then
        match r3 with
        | '-' :: r4 =>
          let (ds, r5) := takeDigitsUpTo 2 r4
          if 1 ≤ ds.length then
            some ((Int.ofNat (digitsVal ys), Int.ofNat (digitsVal ms),
                   Int.ofNat (digitsVal ds)), r5)
          else none
        | _ => none
      else none
    | _ => none
  else none

/-- strptime with format Y-m-d: epoch seconds of midnight of the parsed day,
    or none when parsing fails (ValueError in the code). -/
def parseDayLabel (s : String) : Option Int :=
  match parseYMD s.data with
  | some (ymd, []) =>
    if validYMD ymd.1 ymd.2.1 ymd.2.2 then
      some (daysFromCivil ymd.1 ymd.2.1 ymd.2.2 * 86400)
    else none
  | _ => none

/-- strptime with format Y-m-d-H: epoch seconds of the start of the hour. -/
def parseHourLabel (s : String) : Option Int :=
  match parseYMD s.data with
  | some (ymd, '-' :: r) =>
    let (hs, r2) := takeDigitsUpTo 2 r
    if 1 ≤ hs.length ∧ r2 = [] ∧ validYMD ymd.1 ymd.2.1 ymd.2.2 ∧ digitsVal hs ≤ 23 then
      some (daysFromCivil ymd.1 ymd.2.1 ymd.2.2 * 86400 + (digitsVal hs : Int) * 3600)
    else none
  | _ => none

/-- strptime with format Y-m-d H:M: epoch seconds of the parsed minute. -/
def parseMinuteLabel (s : String) : Option Int :=
  match parseYMD s.data with
  | some (ymd, ' ' :: r) =>
    let (hs, r2) := takeDigitsUpTo 2 r
    if 1 ≤ hs.length ∧ digitsVal hs ≤ 23 then
      match r2 with
      | ':' :: r3 =>
        let (mins, r4) := takeDigitsUpTo 2 r3
        if 1 ≤ mins.length ∧ r4 = [] ∧ validYMD ymd.1 ymd.2.1 ymd.2.2
            ∧ digitsVal mins ≤ 59 then
          some (daysFromCivil ymd.1 ymd.2.1 ymd.2.2 * 86400
                + (digitsVal hs : Int) * 3600 + (digitsVal mins : Int) * 60)
        else none
      | _ => none
    else none
  | _ => none

/-! ## Rate limiting (typed level)
    The persisted table maps bucket labels to per-session counts.  Since a
    well-formed daily label denotes midnight of its day and a well-formed
    hourly label the start of its hour, buckets are keyed here by their
    parsed meaning: the day index (epoch days) and the hour index (epoch
    hours).  strftime of `now` yields the bucket whose index is the floor
    division of `now`, and strptime of a label yields index times width. -/

abbrev Table := List (Int × List (String × Nat))

structure RateLimits where
  daily : Table
  hourly : Table
deriving DecidableEq

def MAX_REQUESTS_PER_DAY : Nat := 15

def MAX_REQUESTS_PER_HOUR : Nat := 5

def daily_limit_message : String := "Request limit exceeded. Please try again tomorrow."

def hourly_limit_message : String := "Request limit exceeded. Please try again later."

/-- Daily cleanup in check_rate_limit: keep a bucket when
    (now - day_dt).days < 1, where timedelta.days floor-divides by 86400. -/
def prune_daily (t : Table) (now : Int) : Table :=
  t.filter (fun kv => decide (Int.fdiv (now - kv.1 * 86400) 86400 < 1))

/-- Hourly cleanup in check_rate_limit: keep a bucket when
    (now - hour_dt).total_seconds() < 3600. -/
def prune_hourly (t : Table) (now : Int) : Table :=
  t.filter (fun kv => decide (now - kv.1 * 3600 < 3600))

/-- Initialize if needed: insert an empty dict for the bucket when absent. -/
def initBucket (t : Table) (k : Int) : Table :=
  if containsKey t k then t else t ++ [(k, [])]

/-- The session count in the current daily bucket, read after pruning and
    initialization, with 0 as the default (lines 101-124 of api.py). -/
def daily_count (file : RateLimits) (session_id : String) (now : Int) : Nat :=
  let today := Int.fdiv now 86400
  getD (getD (initBucket (prune_daily file.daily now) today) today []) session_id 0

/-- The session count in the current hourly bucket after pruning. -/
def hourly_count (file : RateLimits) (session_id : String) (now : Int) : Nat :=
  let hour := Int.fdiv now 3600
  getD (getD (initBucket (prune_hourly file.hourly now) hour) hour []) session_id 0

/-- check_rate_limit: load, prune both tables, then compare the session
    counts against the daily and hourly maxima, in that order. -/
def check_rate_limit (file : RateLimits) (session_id : String) (now : Int) :
    Bool × String :=
  if MAX_REQUESTS_PER_DAY ≤ daily_count file session_id now then
    (false, daily_limit_message)
  else if MAX_REQUESTS_PER_HOUR ≤ hourly_count file session_id now then
    (false, hourly_limit_message)
  else (true, "")

/-- The update increment_rate_limit applies to one table: ensure the current
    bucket exists, then add one to the session count in it.  No pruning. -/
def table_incr (t : Table) (session_id : String) (k : Int) : Table :=
  let t1 := initBucket t k
  let users := getD t1 k []
  setKey t1 k (setKey users session_id (getD users session_id 0 + 1))

/-- increment_rate_limit: load, bump both current buckets, save; the result
    is the new contents of the backing file. -/
def increment_rate_limit (file : RateLimits) (session_id : String) (now : Int) :
    RateLimits :=
  ⟨table_incr file.daily session_id (Int.fdiv now 86400),
   table_incr file.hourly session_id (Int.fdiv now 3600)⟩

/-- check_rate_limit paired with the backing file after the call: the code
    never calls save_rate_limits in check, so the file passes through. -/
def check_rate_limit_st (file : RateLimits) (session_id : String) (now : Int) :
    (Bool × String) × RateLimits :=
  (check_rate_limit file session_id now, file)

def empty_rate_limits : RateLimits := ⟨[], []⟩

/-- k consecutive accepted generations by one session at time now: the
    increment applied to the (initially empty) store k times. -/
def repeatInc (session_id : String) (now : Int) : Nat → RateLimits
  | 0 => empty_rate_limits
  | k + 1 => increment_rate_limit (repeatInc session_id now k) session_id now

/-- Accepted generations at the given sequence of times. -/
def incrAt (session_id : String) (ts : List Int) : RateLimits :=
  ts.foldl (fun f t => increment_rate_limit f session_id t) empty_rate_limits

/-! ## The email archive and the generation handler -/

structure EmailGenerationRequest where
  sender_company : String
  target_company : String
  industry : String
  person_name : String
  role : String
  email_subject : String
  tone : String
  length : String
  custom_instructions : Option String
  session_id : Option String
deriving DecidableEq

structure SavedEmail where
  id : String
  date : String
  recipient : String
  company : String
  subject : String
  content : String
deriving DecidableEq

structure EmailResponse where
  email_text : String
  subject : String
deriving DecidableEq

/-- The id built for a new archive entry at line 228: the current archive
    length plus one, an underscore, and the random draw. -/
def new_email_id (saved_emails : List SavedEmail) (rand : Nat) : String :=
  natRepr (saved_emails.length + 1) ++ "_" ++ natRepr rand

/-- request.session_id or a fresh random 5-digit string; the Python `or`
    also replaces an empty string, which is falsy. -/
def session_of (req : EmailGenerationRequest) (rand_session : Nat) : String :=
  match req.session_id with
  | some s => if s = "" then natRepr rand_session else s
  | none => natRepr rand_session

/-- The whole state the handlers touch: the in-memory archive and the
    rate-limit backing file. -/
structure World where
  saved_emails : List SavedEmail
  rate_limit_file : RateLimits
deriving DecidableEq

/-- The generate_email handler.  `gen` is the outcome of the external
    text-generation call (ok: the raw response text, error: the message of
    the exception the provider raised); the random draws and the clock are
    explicit arguments.  The returned pair is the HTTP outcome (error
    carries status code and detail) and the state after the request. -/
def generate_email (w : World) (req : EmailGenerationRequest) (now : Int)
    (rand_session : Nat) (rand_id : Nat) (gen : Except String String) :
    Except (Nat × String) EmailResponse × World :=
  if req.sender_company = "" ∨ req.target_company = "" ∨ req.person_name = ""
      ∨ req.role = "" ∨ req.email_subject = "" then
    (.error (400, "All fields are required"), w)
  else
    let session_id := session_of req rand_session
    let cp := check_rate_limit w.rate_limit_file session_id now
    if cp.1 = false then
      (.error (429, cp.2), w)
    else
      let file2 := increment_rate_limit w.rate_limit_file session_id now
      match gen with
      | .error e =>
        (.error (500, "Error generating email: " ++ e),
         { saved_emails := w.saved_emails, rate_limit_file := file2 })
      | .ok text =>
        let response_text := pyStrip text
        let entry : SavedEmail :=
          { id := new_email_id w.saved_emails rand_id
            date := fmtMinute now
            recipient := req.person_name
            company := req.target_company
            subject := req.email_subject
            content := response_text }
        (.ok { email_text := response_text, subject := req.email_subject },
         { saved_emails := w.saved_emails ++ [entry], rate_limit_file := file2 })

/-- Python list slicing l[a:b]: negative indices count from the end, and
    both bounds are clamped into the list; never an error. -/
def pySlice {α : Type} (l : List α) (a b : Int) : List α :=
  let n : Int := l.length
  let a2 := if a < 0 then max (n + a) 0 else min a n
  let b2 := if b < 0 then max (n + b) 0 else min b n
  (l.drop a2.toNat).take (b2.toNat - a2.toNat)

/-- get_saved_emails: saved_emails[min(offset, len) : min(offset+limit, len)]. -/
def get_saved_emails (saved_emails : List SavedEmail) (limit offset : Int) :
    List SavedEmail :=
  let n : Int := saved_emails.length
  pySlice saved_emails (min offset n) (min (offset + limit) n)

/-- delete_email: keep every entry whose id differs, then compare lengths;
    404 when nothing was removed, success message otherwise.  The returned
    list is the new archive in either case. -/
def delete_email (saved_emails : List SavedEmail) (email_id : String) :
    Except (Nat × String) String × List SavedEmail :=
  let remaining := saved_emails.filter (fun e => !(e.id == email_id))
  if remaining.length = saved_emails.length then
    (.error (404, "Email not found"), remaining)
  else
    (.ok "Email deleted successfully", remaining)

/-! ## Analytics -/

/-- len(s.split()): the number of whitespace-separated words. -/
def wordCount (s : String) : Nat :=
  ((s.data.foldl
      (fun (st : Bool × Nat) c =>
        if c.isWhitespace then (false, st.2)
        else if st.1 then st else (true, st.2 + 1))
      (false, 0))).2

/-- Total word count over the archive (the avg_length numerator). -/
def total_words (saved_emails : List SavedEmail) : Nat :=
  (saved_emails.map (fun e => wordCount e.content)).sum

/-- Building an insertion-ordered occurrence-count dict over a list, the
    shape of both the date_counts and the company_counts loops. -/
def tally (xs : List String) : List (String × Nat) :=
  xs.foldl (fun acc c => setKey acc c (getD acc c 0 + 1)) []

/-- Insert into a descending-by-count list, after existing entries with the
    same count: the stable descending sort that Python sorted with a count
    key and reverse=True performs, built one element at a time. -/
def insertByCountDesc (x : String × Nat) : List (String × Nat) → List (String × Nat)
  | [] => [x]
  | y :: ys => if x.2 ≤ y.2 then y :: insertByCountDesc x ys else x :: y :: ys

/-- sorted(items, key count, reverse=True): stable, so ties keep their
    insertion (first-appearance) order. -/
def sortByCountDesc (l : List (String × Nat)) : List (String × Nat) :=
  l.foldl (fun acc x => insertByCountDesc x acc) []

structure Analytics where
  total_emails : Nat
  weekly_emails : Nat
  avg_length : Nat
  email_over_time : List (String × Nat)
  top_companies : List (String × Nat)
deriving DecidableEq

/-- get_analytics: the early return on an empty archive, then the four
    aggregate metrics computed from the current archive contents. -/
def get_analytics (saved_emails : List SavedEmail) (now : Int) : Analytics :=
  if saved_emails = [] then
    { total_emails := 0, weekly_emails := 0, avg_length := 0
      email_over_time := [], top_companies := [] }
  else
    let one_week_ago := now - 7 * 86400
    let weekly_emails := saved_emails.countP (fun e =>
      match parseMinuteLabel e.date with
      | some t => decide (one_week_ago < t)
      | none => false)
    let avg_length := total_words saved_emails / max 1 saved_emails.length
    let dates := saved_emails.filterMap (fun e =>
      (parseMinuteLabel e.date).map (fun t => fmtDay t))
    let top := (sortByCountDesc (tally (saved_emails.map (fun e => e.company)))).take 10
    { total_emails := saved_emails.length
      weekly_emails := weekly_emails
      avg_length := avg_length
      email_over_time := tally dates
      top_companies := top }

/-! ## The persisted store at the JSON level
    load_rate_limits returns whatever json.load produced, with no schema
    check, so check_rate_limit must be re-read over raw JSON values to
    settle what happens on arbitrary accepted file contents.  Numbers are
    modelled as integers (the service only ever writes counts). -/

inductive Json where
  | null : Json
  | bool : Bool → Json
  | num : Int → Json
  | str : String → Json
  | arr : List Json → Json
  | obj : List (String × Json) → Json

/-- load_rate_limits over the backing file state: `none` is a missing file,
    `some none` a file whose read or JSON parse raised, and `some (some j)`
    a file whose contents parsed to j, returned as is. -/
def load_rate_limits (file : Option (Option Json)) : Json :=
  match file with
  | none => .obj [("daily", .obj []), ("hourly", .obj [])]
  | some none => .obj [("daily", .obj []), ("hourly", .obj [])]
  | some (some j) => j

/-- Subscripting rate_limits with a string key: KeyError on a missing key,
    TypeError on a non-dict value. -/
def Json.getItem (j : Json) (k : String) : Except String Json :=
  match j with
  | .obj kvs =>
    match kvs.find? (fun kv => kv.1 == k) with
    | some kv => .ok kv.2
    | none => .error ("KeyError: " ++ k)
  | _ => .error "TypeError: value is not subscriptable by a string"

/-- Calling .items() on a value: AttributeError unless it is a dict. -/
def Json.items (j : Json) : Except String (List (String × Json)) :=
  match j with
  | .obj kvs => .ok kvs
  | _ => .error "AttributeError: the value has no items method"

/-- Calling .get(k, default) on a value: AttributeError unless a dict. -/
def Json.dictGet (j : Json) (k : String) (dflt : Json) : Except String Json :=
  match j with
  | .obj kvs =>
    match kvs.find? (fun kv => kv.1 == k) with
    | some kv => .ok kv.2
    | none => .ok dflt
  | _ => .error "AttributeError: the value has no get method"

/-- Comparing a stored count against an int: TypeError unless a number. -/
def Json.asNum (j : Json) : Except String Int :=
  match j with
  | .num n => .ok n
  | _ => .error "TypeError: comparison of non-number with int"

/-- The cleanup loop over one raw table: strptime each bucket label (the
    first malformed label raises ValueError), keep the bucket when its
    parsed time satisfies the window predicate. -/
def pruneRawTable (parse : String → Option Int) (keep : Int → Bool) :
    List (String × Json) → Except String (List (String × Json))
  | [] => .ok []
  | (k, v) :: rest =>
    match parse k with
    | none => .error ("ValueError: time data does not match format: " ++ k)
    | some t => do
      let tail ← pruneRawTable parse keep rest
      pure (if keep t then (k, v) :: tail else tail)

/-- Insert today or the current hour with an empty dict when absent. -/
def initRawBucket (t : List (String × Json)) (k : String) : List (String × Json) :=
  if (t.find? (fun kv => kv.1 == k)).isSome then t else t ++ [(k, Json.obj [])]

/-- Look up a bucket known to be present (direct dict subscripting after
    initialization); the default branch is unreachable after initRawBucket. -/
def rawBucket (t : List (String × Json)) (k : String) : Json :=
  match t.find? (fun kv => kv.1 == k) with
  | some kv => kv.2
  | none => Json.obj []

/-- check_rate_limit over raw loaded JSON, line for line: compute the two
    labels from now, prune the daily then the hourly table (strptime on each
    stored label), initialize the current buckets, read both session counts,
    then compare, daily first.  Any step a real dict-shaped store would make
    impossible raises, which the code does not catch. -/
def check_rate_limit_json (rate_limits : Json) (session_id : String) (now : Int) :
    Except String (Bool × String) := do
  let today := fmtDay now
  let hour := fmtHour now
  let daily ← rate_limits.getItem "daily"
  let dailyItems ← daily.items
  let daily_limits ← pruneRawTable parseDayLabel
      (fun t => decide (Int.fdiv (now - t) 86400 < 1)) dailyItems
  let hourly ← rate_limits.getItem "hourly"
  let hourlyItems ← hourly.items
  let hourly_limits ← pruneRawTable parseHourLabel
      (fun t => decide (now - t < 3600)) hourlyItems
  let daily2 := initRawBucket daily_limits today
  let hourly2 := initRawBucket hourly_limits hour
  let dRaw ← (rawBucket daily2 today).dictGet session_id (Json.num 0)
  let hRaw ← (rawBucket hourly2 hour).dictGet session_id (Json.num 0)
  let daily_cnt ← dRaw.asNum
  if 15 ≤ daily_cnt then
    pure (false, daily_limit_message)
  else do
    let hourly_cnt ← hRaw.asNum
    if 5 ≤ hourly_cnt then
      pure (false, hourly_limit_message)
    else
      pure (true, "")

/-- A per-bucket dict of numeric counts, the only bucket shape the service
    itself ever writes. -/
def objOfNums : Json → Bool
  | .obj users => users.all (fun u =>
      match u.2 with
      | .num _ => true
      | _ => false)
  | _ => false

/-- A raw table whose bucket labels all strptime and whose buckets are
    dicts of numeric counts: the shape the service itself writes. -/
def wfRawTable (parse : String → Option Int) : Json → Bool
  | .obj kvs => kvs.all (fun kv => (parse kv.1).isSome && objOfNums kv.2)
  | _ => false

/-- A well-formed persisted store: a dict holding daily and hourly tables
    of the shape the service writes. -/
def wellFormedStore (j : Json) : Bool :=
  match j.getItem "daily", j.getItem "hourly" with
  | .ok d, .ok h => wfRawTable parseDayLabel d && wfRawTable parseHourLabel h
  | _, _ => false

/-! ## Concrete fixtures used by witnesses and counterexamples -/

def digitsFold (ds : List Nat) : Nat := ds.foldl (fun a d => a * 10 + d) 0

def req_w : EmailGenerationRequest :=
  ⟨"sc", "tc", "ind", "pn", "r", "subj", "Professional", "Concise", none, some "s"⟩

def e_w (i c : String) : SavedEmail := ⟨i, "2024-05-01 16:13", "pn", c, "subj", "one two three"⟩

def e_bad : SavedEmail := ⟨"9_1", "not a date", "pn", "Z", "subj", "a b c d e"⟩

def empty_store_json : Json := Json.obj [("daily", Json.obj []), ("hourly", Json.obj [])]

def bad_store_json : Json :=
  Json.obj [("daily", Json.obj [("garbage", Json.obj [])]), ("hourly", Json.obj [])]

def wf_store_json : Json :=
  Json.obj [("daily", Json.obj [("2024-05-01", Json.obj [("s", Json.num 3)])]),
            ("hourly", Json.obj [("2024-05-01-16", Json.obj [("s", Json.num 1)])])]

/-! ## Helper lemmas: association lists and floor-division arithmetic -/

theorem fdiv_lt_one_iff (a : Int) : Int.fdiv a 86400 < 1 ↔ a < 86400 := by
  rw [Int.fdiv_eq_ediv _ (by norm_num)]
  omega

theorem today_keeps (now : Int) :
    Int.fdiv (now - Int.fdiv now 86400 * 86400) 86400 < 1 := by
  rw [Int.fdiv_eq_ediv _ (by norm_num), Int.fdiv_eq_ediv _ (by norm_num)]
  omega

theorem getD_nil {α β : Type} [BEq α] (c : α) (d : β) :
    getD ([] : List (α × β)) c d = d := rfl

theorem getD_cons {α β : Type} [BEq α] (kv : α × β) (rest : List (α × β)) (c : α) (d : β) :
    getD (kv :: rest) c d = if kv.1 == c then kv.2 else getD rest c d := rfl

theorem containsKey_nil {α β : Type} [BEq α] (k : α) :
    containsKey ([] : List (α × β)) k = false := rfl

theorem containsKey_cons {α β : Type} [BEq α] (kv : α × β) (rest : List (α × β)) (k : α) :
    containsKey (kv :: rest) k = ((kv.1 == k) || containsKey rest k) := by
  simp [containsKey]

theorem getD_setKey_self {α β : Type} [BEq α] [LawfulBEq α]
    (m : List (α × β)) (k : α) (v : β) (d : β) :
    getD (setKey m k v) k d = v := by
  induction m with
  | nil => simp [setKey, getD]
  | cons kv rest ih =>
    rw [setKey]
    by_cases h : kv.1 == k
    · rw [if_pos h, getD_cons]
      simp
    · rw [if_neg h, getD_cons, if_neg h]
      exact ih

theorem getD_setKey_ne {α β : Type} [BEq α] [LawfulBEq α]
    (m : List (α × β)) (k : α) (v : β) (c : α) (d : β) (hck : c ≠ k) :
    getD (setKey m k v) c d = getD m c d := by
  induction m with
  | nil =>
    rw [setKey, getD_cons, getD_nil, if_neg]
    simpa using fun he => hck he.symm
  | cons kv rest ih =>
    rw [setKey]
    by_cases h : kv.1 == k
    · have hk : kv.1 = k := by simpa using h
      rw [if_pos h, getD_cons, getD_cons, hk]
      have h1 : (k == c) = false := by simpa using fun he => hck he.symm
      simp only [h1]
      simp
    · rw [if_neg h, getD_cons, getD_cons, ih]

theorem containsKey_eq_mem_keys {α β : Type} [BEq α] [LawfulBEq α]
    (m : List (α × β)) (k : α) :
    containsKey m k = true ↔ k ∈ m.map Prod.fst := by
  rw [containsKey, List.any_eq_true]
  constructor
  · rintro ⟨kv, hm, he⟩
    exact List.mem_map.mpr ⟨kv, hm, by simpa using he⟩
  · intro h
    rcases List.mem_map.mp h with ⟨kv, hm, he⟩
    exact ⟨kv, hm, by simp [he]⟩

theorem keys_setKey_mem {α β : Type} [BEq α] [LawfulBEq α]
    (m : List (α × β)) (k : α) (v : β) (h : containsKey m k = true) :
    (setKey m k v).map Prod.fst = m.map Prod.fst := by
  induction m with
  | nil => simp [containsKey] at h
  | cons kv rest ih =>
    rw [setKey]
    by_cases hk : kv.1 == k
    · rw [if_pos hk]
      have : kv.1 = k := by simpa using hk
      simp [this]
    · rw [if_neg hk]
      rw [containsKey_cons] at h
      have h2 : containsKey rest k = true := by
        rcases Bool.or_eq_true_iff.mp h with h1 | h1
        · exact absurd h1 (by simpa using hk)
        · exact h1
      simp [ih h2]

theorem keys_setKey_not {α β : Type} [BEq α] [LawfulBEq α]
    (m : List (α × β)) (k : α) (v : β) (h : containsKey m k = false) :
    (setKey m k v).map Prod.fst = m.map Prod.fst ++ [k] := by
  induction m with
  | nil => simp [setKey]
  | cons kv rest ih =>
    rw [containsKey_cons] at h
    rcases Bool.or_eq_false_iff.mp h with ⟨h1, h2⟩
    rw [setKey, if_neg (by simp [h1])]
    simp [ih h2]

theorem containsKey_append_left {α β : Type} [BEq α] (m m2 : List (α × β)) (d : α)
    (h : containsKey m d = true) : containsKey (m ++ m2) d = true := by
  rw [containsKey, List.any_append]
  rw [containsKey] at h
  simp [h]

theorem containsKey_setKey {α β : Type} [BEq α] [LawfulBEq α]
    (m : List (α × β)) (k : α) (v : β) (d : α)
    (h : containsKey m d = true) : containsKey (setKey m k v) d = true := by
  induction m with
  | nil => simp [containsKey] at h
  | cons kv rest ih =>
    rw [setKey]
    by_cases hk : kv.1 == k
    · rw [if_pos hk]
      rw [containsKey, List.any_cons] at h ⊢
      rcases Bool.or_eq_true_iff.mp h with h1 | h2
      · have : kv.1 = d := by simpa using h1
        have : k = d := by
          have hkk : kv.1 = k := by simpa using hk
          rw [← hkk, this]
        simp [this]
      · simp [h2]
    · rw [if_neg hk]
      rw [containsKey, List.any_cons] at h ⊢
      rcases Bool.or_eq_true_iff.mp h with h1 | h2
      · simp [h1]
      · have := ih h2
        rw [containsKey] at this
        simp [this]

theorem mem_assoc_getD {α β : Type} [BEq α] [LawfulBEq α]
    (m : List (α × β)) (c : α) (k : β) (d : β)
    (hnodup : (m.map Prod.fst).Nodup) (hm : (c, k) ∈ m) : getD m c d = k := by
  induction m with
  | nil => simp at hm
  | cons kv rest ih =>
    rcases List.mem_cons.mp hm with h1 | h2
    · rw [← h1, getD_cons]
      simp
    · have hkeys : kv.1 ∉ rest.map Prod.fst := by
        rw [List.map_cons, List.nodup_cons] at hnodup
        exact hnodup.1
      have hc : c ∈ rest.map Prod.fst := List.mem_map.mpr ⟨(c, k), h2, rfl⟩
      have hne : (kv.1 == c) = false := by
        simp only [beq_eq_false_iff_ne, ne_eq]
        intro he
        rw [he] at hkeys
        exact hkeys hc
      rw [getD_cons, hne]
      simp only [Bool.false_eq_true, if_false]
      rw [List.map_cons, List.nodup_cons] at hnodup
      exact ih hnodup.2 h2

/-! ## Helper lemmas: the rate limiter -/

theorem table_incr_nil (sid : String) (k : Int) :
    table_incr [] sid k = [(k, [(sid, 1)])] := by
  simp [table_incr, initBucket, containsKey, getD, setKey]

theorem table_incr_single (sid : String) (k : Int) (c : Nat) :
    table_incr [(k, [(sid, c)])] sid k = [(k, [(sid, c + 1)])] := by
  simp [table_incr, initBucket, containsKey, getD, setKey, List.find?]

theorem daily_count_single (hourly : Table) (sid : String) (now : Int) (c : Nat) :
    daily_count ⟨[(Int.fdiv now 86400, [(sid, c)])], hourly⟩ sid now = c := by
  have h := today_keeps now
  simp [daily_count, prune_daily, initBucket, containsKey, getD, List.find?, h]

theorem hourly_count_single (daily : Table) (sid : String) (now : Int) (c : Nat) :
    hourly_count ⟨daily, [(Int.fdiv now 3600, [(sid, c)])]⟩ sid now = c := by
  have h : now - Int.fdiv now 3600 * 3600 < 3600 := by
    rw [Int.fdiv_eq_ediv _ (by norm_num)]
    omega
  simp [hourly_count, prune_hourly, initBucket, containsKey, getD, List.find?, h]

theorem daily_count_of_eq (f : RateLimits) (sid : String) (now : Int) (c : Nat)
    (h : f.daily = [(Int.fdiv now 86400, [(sid, c)])]) :
    daily_count f sid now = c := by
  have := daily_count_single f.hourly sid now c
  rw [daily_count] at this ⊢
  rw [h]
  simpa using this

theorem daily_count_empty (hourly : Table) (sid : String) (now : Int) :
    daily_count ⟨[], hourly⟩ sid now = 0 := by
  simp [daily_count, prune_daily, initBucket, containsKey, getD, List.find?]

theorem hourly_count_empty (daily : Table) (sid : String) (now : Int) :
    hourly_count ⟨daily, []⟩ sid now = 0 := by
  simp [hourly_count, prune_hourly, initBucket, containsKey, getD, List.find?]

theorem repeatInc_shape (sid : String) (now : Int) :
    ∀ k, 1 ≤ k → repeatInc sid now k =
      ⟨[(Int.fdiv now 86400, [(sid, k)])], [(Int.fdiv now 3600, [(sid, k)])]⟩ := by
  intro k hk
  induction k with
  | zero => omega
  | succ n ih =>
    rcases Nat.eq_zero_or_pos n with h0 | hpos
    · subst h0
      show increment_rate_limit empty_rate_limits sid now = _
      simp [increment_rate_limit, empty_rate_limits, table_incr_nil]
    · show increment_rate_limit (repeatInc sid now n) sid now = _
      rw [ih hpos]
      simp [increment_rate_limit, table_incr_single]

theorem incrAt_daily (sid : String) :
    ∀ (ts : List Int) (f : RateLimits),
      (ts.foldl (fun g t => increment_rate_limit g sid t) f).daily
        = ts.foldl (fun d t => table_incr d sid (Int.fdiv t 86400)) f.daily := by
  intro ts
  induction ts with
  | nil => intro f; rfl
  | cons t rest ih =>
    intro f
    simpa using ih (increment_rate_limit f sid t)

theorem table_incr_fold_same_day (sid : String) (D : Int) :
    ∀ (ts : List Int) (c : Nat), (∀ t ∈ ts, Int.fdiv t 86400 = D) →
      ts.foldl (fun d t => table_incr d sid (Int.fdiv t 86400)) [(D, [(sid, c)])]
        = [(D, [(sid, c + ts.length)])] := by
  intro ts
  induction ts with
  | nil => intro c _; simp
  | cons t rest ih =>
    intro c hday
    have ht : Int.fdiv t 86400 = D := hday t (by simp)
    simp only [List.foldl_cons, ht, table_incr_single]
    rw [ih (c + 1) (fun u hu => hday u (by simp [hu]))]
    simp only [List.length_cons]
    have hc : c + 1 + rest.length = c + (rest.length + 1) := by omega
    rw [hc]

theorem incrAt_same_day (sid : String) (D : Int) :
    ∀ (ts : List Int), ts ≠ [] → (∀ t ∈ ts, Int.fdiv t 86400 = D) →
      (incrAt sid ts).daily = [(D, [(sid, ts.length)])] := by
  intro ts hne hday
  cases ts with
  | nil => exact absurd rfl hne
  | cons t rest =>
    have ht : Int.fdiv t 86400 = D := hday t (by simp)
    rw [incrAt, incrAt_daily]
    simp only [List.foldl_cons]
    show (rest.foldl (fun d u => table_incr d sid (Int.fdiv u 86400))
        (table_incr empty_rate_limits.daily sid (Int.fdiv t 86400))) = _
    rw [ht]
    show (rest.foldl (fun d u => table_incr d sid (Int.fdiv u 86400))
        (table_incr [] sid D)) = _
    rw [table_incr_nil, table_incr_fold_same_day sid D rest 1
        (fun u hu => hday u (by simp [hu]))]
    simp only [List.length_cons]
    have hc : 1 + rest.length = rest.length + 1 := by omega
    rw [hc]

theorem old_daily_pruned (t : Table) (now d : Int) (h : 86400 < now - d * 86400) :
    containsKey (prune_daily t now) d = false := by
  rw [containsKey, List.any_eq_false]
  intro kv hkv hbeq
  have hkd : kv.1 = d := by simpa using hbeq
  rw [prune_daily, List.mem_filter] at hkv
  have := hkv.2
  rw [hkd] at this
  rw [decide_eq_true_eq, fdiv_lt_one_iff] at this
  omega

theorem old_hourly_pruned (t : Table) (now h0 : Int) (h : 3600 < now - h0 * 3600) :
    containsKey (prune_hourly t now) h0 = false := by
  rw [containsKey, List.any_eq_false]
  intro kv hkv hbeq
  have hkd : kv.1 = h0 := by simpa using hbeq
  rw [prune_hourly, List.mem_filter] at hkv
  have := hkv.2
  rw [hkd, decide_eq_true_eq] at this
  omega

theorem prune_daily_erase (t : Table) (now d : Int) (h : 86400 < now - d * 86400) :
    prune_daily (eraseKey t d) now = prune_daily t now := by
  rw [prune_daily, prune_daily, eraseKey, List.filter_filter]
  apply List.filter_congr
  intro kv _
  by_cases hkd : kv.1 = d
  · have hfalse : decide (Int.fdiv (now - kv.1 * 86400) 86400 < 1) = false := by
      rw [decide_eq_false_iff_not, fdiv_lt_one_iff, hkd]
      omega
    simp [hfalse]
  · simp [hkd]

theorem prune_hourly_erase (t : Table) (now h0 : Int) (h : 3600 < now - h0 * 3600) :
    prune_hourly (eraseKey t h0) now = prune_hourly t now := by
  rw [prune_hourly, prune_hourly, eraseKey, List.filter_filter]
  apply List.filter_congr
  intro kv _
  by_cases hkd : kv.1 = h0
  · have hfalse : decide (now - kv.1 * 3600 < 3600) = false := by
      rw [decide_eq_false_iff_not, hkd]
      omega
    simp [hfalse]
  · simp [hkd]

theorem check_congr (f g : RateLimits) (sid : String) (now : Int)
    (hd : prune_daily f.daily now = prune_daily g.daily now)
    (hh : prune_hourly f.hourly now = prune_hourly g.hourly now) :
    check_rate_limit f sid now = check_rate_limit g sid now := by
  rw [check_rate_limit, check_rate_limit, daily_count, daily_count, hd,
    hourly_count, hourly_count, hh]

theorem containsKey_table_incr (t : Table) (sid : String) (k d : Int)
    (h : containsKey t d = true) : containsKey (table_incr t sid k) d = true := by
  rw [table_incr]
  apply containsKey_setKey
  rw [initBucket]
  by_cases hc : containsKey t k
  · rw [if_pos hc]; exact h
  · rw [if_neg hc]; exact containsKey_append_left _ _ _ h

/-! ## Helper lemmas: decimal ids -/

theorem digitsFold_append_last (ds : List Nat) (d : Nat) :
    digitsFold (ds ++ [d]) = 10 * digitsFold ds + d := by
  simp [digitsFold, List.foldl_append]
  omega

theorem natDigitsGo_val : ∀ (f n : Nat), n ≤ f → digitsFold (natDigitsGo f n) = n := by
  intro f
  induction f with
  | zero =>
    intro n hn
    have h0 : n = 0 := by omega
    subst h0
    rfl
  | succ f ih =>
    intro n hn
    rw [natDigitsGo]
    by_cases h : n < 10
    · rw [if_pos h]
      simp [digitsFold]
    · rw [if_neg h]
      rw [digitsFold_append_last, ih (n / 10) (by omega)]
      omega

theorem natDigits_val (n : Nat) : digitsFold (natDigits n) = n :=
  natDigitsGo_val n n le_rfl

theorem natDigits_inj {m n : Nat} (h : natDigits m = natDigits n) : m = n := by
  rw [← natDigits_val m, ← natDigits_val n, h]

theorem natDigitsGo_lt : ∀ (f n : Nat), ∀ d ∈ natDigitsGo f n, d < 10 := by
  intro f
  induction f with
  | zero =>
    intro n d hd
    rw [natDigitsGo] at hd
    simp at hd
    omega
  | succ f ih =>
    intro n d hd
    rw [natDigitsGo] at hd
    by_cases h : n < 10
    · rw [if_pos h] at hd
      simp at hd
      omega
    · rw [if_neg h] at hd
      rcases List.mem_append.mp hd with h1 | h2
      · exact ih (n / 10) d h1
      · simp at h2
        omega

theorem natDigits_lt (n : Nat) : ∀ d ∈ natDigits n, d < 10 :=
  natDigitsGo_lt n n

theorem digitCharM_ne_underscore : ∀ d < 10, digitCharM d ≠ '_' := by decide

theorem digitCharM_inj : ∀ d1 < 10, ∀ d2 < 10, digitCharM d1 = digitCharM d2 → d1 = d2 := by
  decide

theorem map_digitCharM_inj : ∀ (a b : List Nat), (∀ d ∈ a, d < 10) → (∀ d ∈ b, d < 10) →
    a.map digitCharM = b.map digitCharM → a = b := by
  intro a
  induction a with
  | nil =>
    intro b _ _ h
    cases b with
    | nil => rfl
    | cons y ys => simp at h
  | cons x xs ih =>
    intro b ha hb h
    cases b with
    | nil => simp at h
    | cons y ys =>
      simp only [List.map_cons, List.cons.injEq] at h
      have hx : x = y := digitCharM_inj x (ha x (by simp)) y (hb y (by simp)) h.1
      have ht : xs = ys := ih ys (fun d hd => ha d (by simp [hd]))
        (fun d hd => hb d (by simp [hd])) h.2
      rw [hx, ht]

theorem underscore_not_mem (a : List Nat) (ha : ∀ d ∈ a, d < 10) :
    ('_' : Char) ∉ a.map digitCharM := by
  intro h
  rcases List.mem_map.mp h with ⟨d, hd, he⟩
  exact digitCharM_ne_underscore d (ha d hd) he

theorem append_sep_inj : ∀ {a : List Char} (b : List Char) {c : List Char} (d : List Char),
    ('_' : Char) ∉ a → ('_' : Char) ∉ c →
    a ++ '_' :: b = c ++ '_' :: d → a = c ∧ b = d := by
  intro a
  induction a with
  | nil =>
    intro b c d _ hc h
    cases c with
    | nil => simpa using h
    | cons y ys =>
      simp only [List.nil_append, List.cons_append, List.cons.injEq] at h
      exact absurd (by simp [← h.1]) hc
  | cons x xs ih =>
    intro b c d ha hc h
    cases c with
    | nil =>
      simp only [List.nil_append, List.cons_append, List.cons.injEq] at h
      exact absurd (by simp [h.1]) ha
    | cons y ys =>
      simp only [List.cons_append, List.cons.injEq] at h
      have ht := ih b d (fun hm => ha (by simp [hm])) (fun hm => hc (by simp [hm])) h.2
      exact ⟨by rw [h.1, ht.1], ht.2⟩

theorem new_email_id_inj (s1 s2 : List SavedEmail) (r1 r2 : Nat) :
    new_email_id s1 r1 = new_email_id s2 r2 → s1.length = s2.length ∧ r1 = r2 := by
  intro h
  have hd : ((natDigits (s1.length + 1)).map digitCharM)
        ++ '_' :: ((natDigits r1).map digitCharM)
      = ((natDigits (s2.length + 1)).map digitCharM)
        ++ '_' :: ((natDigits r2).map digitCharM) := by
    have := congrArg String.data h
    simpa [new_email_id, natRepr] using this
  obtain ⟨h1, h2⟩ := append_sep_inj _ _
    (underscore_not_mem _ (natDigits_lt _)) (underscore_not_mem _ (natDigits_lt _)) hd
  refine ⟨?_, ?_⟩
  · have := natDigits_inj (map_digitCharM_inj _ _ (natDigits_lt _) (natDigits_lt _) h1)
    omega
  · exact natDigits_inj (map_digitCharM_inj _ _ (natDigits_lt _) (natDigits_lt _) h2)

/-! ## Helper lemmas: lists -/

theorem filter_lengths {α : Type} (p : α → Bool) (l : List α) :
    (l.filter p).length + (l.filter (fun a => !p a)).length = l.length := by
  have hp := List.filter_append_perm p l
  have := hp.length_eq
  simpa [List.length_append] using this

theorem take_drop_clamp {α : Type} (l : List α) (o li : Nat) :
    (l.drop (min o l.length)).take (min (o + li) l.length - min o l.length)
      = (l.drop o).take li := by
  rcases Nat.lt_or_ge o l.length with h | h
  · rw [Nat.min_eq_left (Nat.le_of_lt h)]
    rcases le_or_lt (o + li) l.length with h2 | h2
    · rw [Nat.min_eq_left h2]
      congr 1
      omega
    · rw [Nat.min_eq_right (Nat.le_of_lt h2)]
      rw [List.take_of_length_le, List.take_of_length_le]
      · simp only [List.length_drop]; omega
      · simp only [List.length_drop]; omega
  · rw [Nat.min_eq_right h]
    have hd2 : l.drop o = [] := List.drop_eq_nil_of_le h
    rw [List.drop_length, hd2]
    simp

/-! ## Helper lemmas: analytics -/

theorem tally_fold_getD (xs : List String) :
    ∀ (acc : List (String × Nat)) (c : String),
      getD (xs.foldl (fun acc c => setKey acc c (getD acc c 0 + 1)) acc) c 0
        = getD acc c 0 + xs.count c := by
  induction xs with
  | nil =>
    intro acc c
    simp
  | cons x rest ih =>
    intro acc c
    rw [List.foldl_cons, ih]
    by_cases hcx : c = x
    · subst hcx
      rw [getD_setKey_self, List.count_cons]
      simp
      omega
    · rw [getD_setKey_ne _ _ _ _ _ hcx, List.count_cons]
      have hx : (x == c) = false := by simpa using fun h => hcx h.symm
      simp [hx]

theorem tally_getD (xs : List String) (c : String) :
    getD (tally xs) c 0 = xs.count c := by
  rw [tally, tally_fold_getD]
  simp [getD]

theorem tally_fold_keys_nodup (xs : List String) :
    ∀ acc : List (String × Nat), (acc.map Prod.fst).Nodup →
      (((xs.foldl (fun acc c => setKey acc c (getD acc c 0 + 1)) acc)).map Prod.fst).Nodup := by
  induction xs with
  | nil => intro acc h; simpa using h
  | cons x rest ih =>
    intro acc hacc
    rw [List.foldl_cons]
    apply ih
    by_cases hc : containsKey acc x
    · rw [keys_setKey_mem _ _ _ hc]
      exact hacc
    · rw [keys_setKey_not _ _ _ (by simpa using hc)]
      rw [List.nodup_append]
      refine ⟨hacc, by simp, ?_⟩
      intro a ha hb
      have hax : a = x := by simpa using hb
      subst hax
      exact hc ((containsKey_eq_mem_keys acc a).mpr ha)

theorem tally_keys_nodup (xs : List String) : ((tally xs).map Prod.fst).Nodup := by
  rw [tally]
  exact tally_fold_keys_nodup xs [] (by simp)

theorem insert_perm (x : String × Nat) (l : List (String × Nat)) :
    (insertByCountDesc x l).Perm (x :: l) := by
  induction l with
  | nil => exact List.Perm.refl _
  | cons y ys ih =>
    rw [insertByCountDesc]
    by_cases h : x.2 ≤ y.2
    · rw [if_pos h]
      exact (ih.cons y).trans (List.Perm.swap x y ys)
    · rw [if_neg h]

theorem sort_fold_perm (l : List (String × Nat)) :
    ∀ acc, ((l.foldl (fun acc x => insertByCountDesc x acc) acc)).Perm (acc ++ l) := by
  induction l with
  | nil => intro acc; simp
  | cons x rest ih =>
    intro acc
    rw [List.foldl_cons]
    refine (ih (insertByCountDesc x acc)).trans ?_
    refine (List.Perm.append_right rest (insert_perm x acc)).trans ?_
    exact List.perm_middle.symm

theorem sortByCountDesc_perm (l : List (String × Nat)) : (sortByCountDesc l).Perm l := by
  rw [sortByCountDesc]
  simpa using sort_fold_perm l []

theorem insert_sorted (x : String × Nat) (l : List (String × Nat))
    (h : List.Pairwise (fun a b => b.2 ≤ a.2) l) :
    List.Pairwise (fun a b => b.2 ≤ a.2) (insertByCountDesc x l) := by
  induction l with
  | nil => simp [insertByCountDesc]
  | cons y ys ih =>
    rw [List.pairwise_cons] at h
    rw [insertByCountDesc]
    by_cases hxy : x.2 ≤ y.2
    · rw [if_pos hxy, List.pairwise_cons]
      constructor
      · intro z hz
        rcases List.mem_cons.mp ((insert_perm x ys).mem_iff.mp hz) with h1 | h2
        · rw [h1]; exact hxy
        · exact h.1 z h2
      · exact ih h.2
    · rw [if_neg hxy, List.pairwise_cons]
      constructor
      · intro z hz
        rcases List.mem_cons.mp hz with h1 | h2
        · rw [h1]; omega
        · exact le_trans (h.1 z h2) (by omega)
      · rw [List.pairwise_cons]
        exact h

theorem sort_fold_sorted (l : List (String × Nat)) :
    ∀ acc, List.Pairwise (fun a b => b.2 ≤ a.2) acc →
      List.Pairwise (fun a b => b.2 ≤ a.2)
        (l.foldl (fun acc x => insertByCountDesc x acc) acc) := by
  induction l with
  | nil => intro acc h; simpa using h
  | cons x rest ih =>
    intro acc hacc
    rw [List.foldl_cons]
    exact ih _ (insert_sorted x acc hacc)

theorem sortByCountDesc_sorted (l : List (String × Nat)) :
    List.Pairwise (fun a b => b.2 ≤ a.2) (sortByCountDesc l) := by
  rw [sortByCountDesc]
  exact sort_fold_sorted l [] (by simp)

theorem get_analytics_eq (saved : List SavedEmail) (now : Int) :
    get_analytics saved now =
      { total_emails := saved.length
        weekly_emails := saved.countP (fun e =>
          match parseMinuteLabel e.date with
          | some t => decide (now - 7 * 86400 < t)
          | none => false)
        avg_length := total_words saved / max 1 saved.length
        email_over_time := tally (saved.filterMap (fun e =>
          (parseMinuteLabel e.date).map (fun t => fmtDay t)))
        top_companies :=
          (sortByCountDesc (tally (saved.map (fun e => e.company)))).take 10 } := by
  by_cases h : saved = []
  · subst h
    rfl
  · rw [get_analytics, if_neg h]

/-! ## Helper lemmas: the raw JSON store -/

theorem bind_ok_eq {ε α β : Type} (a : α) (f : α → Except ε β) :
    (Except.ok a : Except ε α) >>= f = f a := rfl

theorem pruneRawTable_ok (parse : String → Option Int) (keep : Int → Bool) :
    ∀ kvs : List (String × Json), (∀ kv ∈ kvs, (parse kv.1).isSome) →
      ∃ res, pruneRawTable parse keep kvs = .ok res ∧ ∀ kv ∈ res, kv ∈ kvs := by
  intro kvs
  induction kvs with
  | nil => exact fun _ => ⟨[], rfl, by simp⟩
  | cons kv rest ih =>
    intro hall
    have hk : (parse kv.1).isSome := hall kv (by simp)
    rcases Option.isSome_iff_exists.mp hk with ⟨t, ht⟩
    rcases ih (fun u hu => hall u (by simp [hu])) with ⟨res, hres, hsub⟩
    refine ⟨if keep t then kv :: res else res, ?_, ?_⟩
    · show pruneRawTable parse keep (kv :: rest) = _
      rw [pruneRawTable]
      cases kv with
      | mk k v =>
        simp only at ht ⊢
        rw [ht, hres]
        rfl
    · intro u hu
      by_cases hkt : keep t
      · rw [if_pos hkt] at hu
        rcases List.mem_cons.mp hu with h1 | h2
        · simp [h1]
        · simp [hsub u h2]
      · rw [if_neg hkt] at hu
        simp [hsub u hu]

theorem initRawBucket_mem (t2 : List (String × Json)) (label : String) :
    ∀ kv ∈ initRawBucket t2 label, kv ∈ t2 ∨ kv = (label, Json.obj []) := by
  intro kv hkv
  rw [initRawBucket] at hkv
  by_cases hc : (t2.find? (fun kv => kv.1 == label)).isSome
  · rw [if_pos hc] at hkv
    exact Or.inl hkv
  · rw [if_neg hc] at hkv
    rcases List.mem_append.mp hkv with h1 | h2
    · exact Or.inl h1
    · simp at h2
      exact Or.inr h2

theorem rawBucket_objOfNums (t2 : List (String × Json)) (label : String)
    (hwf : ∀ kv ∈ t2, objOfNums kv.2) :
    objOfNums (rawBucket (initRawBucket t2 label) label) := by
  rw [rawBucket]
  cases hf : (initRawBucket t2 label).find? (fun kv => kv.1 == label) with
  | none => rfl
  | some kv =>
    have hmem : kv ∈ initRawBucket t2 label := List.mem_of_find?_eq_some hf
    rcases initRawBucket_mem t2 label kv hmem with h1 | h2
    · exact hwf kv h1
    · rw [h2]
      rfl

theorem dictGet_asNum_ok (j : Json) (sid : String) (hwf : objOfNums j = true) :
    ∃ n : Int, j.dictGet sid (Json.num 0) = .ok (Json.num n) := by
  cases j with
  | obj users =>
    rw [Json.dictGet]
    cases hf : users.find? (fun kv => kv.1 == sid) with
    | none => exact ⟨0, rfl⟩
    | some kv =>
      have hmem : kv ∈ users := List.mem_of_find?_eq_some hf
      rw [objOfNums, List.all_eq_true] at hwf
      have := hwf kv hmem
      cases hv : kv.2 with
      | num n => exact ⟨n, by simp [hv]⟩
      | null => rw [hv] at this; simp at this
      | bool b => rw [hv] at this; simp at this
      | str s => rw [hv] at this; simp at this
      | arr xs => rw [hv] at this; simp at this
      | obj kvs2 => rw [hv] at this; simp at this
  | null => simp [objOfNums] at hwf
  | bool b => simp [objOfNums] at hwf
  | num n => simp [objOfNums] at hwf
  | str s => simp [objOfNums] at hwf
  | arr xs => simp [objOfNums] at hwf

theorem wfRawTable_parts (parse : String → Option Int) (j : Json)
    (h : wfRawTable parse j = true) :
    ∃ kvs, j = .obj kvs ∧ (∀ kv ∈ kvs, (parse kv.1).isSome)
      ∧ (∀ kv ∈ kvs, objOfNums kv.2) := by
  cases j with
  | obj kvs =>
    refine ⟨kvs, rfl, ?_, ?_⟩
    · intro kv hkv
      rw [wfRawTable, List.all_eq_true] at h
      exact (Bool.and_eq_true_iff.mp (h kv hkv)).1
    · intro kv hkv
      rw [wfRawTable, List.all_eq_true] at h
      exact (Bool.and_eq_true_iff.mp (h kv hkv)).2
  | null => simp [wfRawTable] at h
  | bool b => simp [wfRawTable] at h
  | num n => simp [wfRawTable] at h
  | str s => simp [wfRawTable] at h
  | arr xs => simp [wfRawTable] at h

theorem check_json_ok_of_wf (j : Json) (sid : String) (now : Int)
    (hwf : wellFormedStore j = true) :
    ∃ r, check_rate_limit_json j sid now = .ok r := by
  rw [wellFormedStore] at hwf
  cases hd : j.getItem "daily" with
  | error e => rw [hd] at hwf; cases j.getItem "hourly" <;> simp at hwf
  | ok d =>
    cases hh : j.getItem "hourly" with
    | error e => rw [hd, hh] at hwf; simp at hwf
    | ok h =>
      rw [hd, hh] at hwf
      rcases Bool.and_eq_true_iff.mp hwf with ⟨hwd, hwh⟩
      rcases wfRawTable_parts _ d hwd with ⟨dkvs, rfl, hdparse, hdnum⟩
      rcases wfRawTable_parts _ h hwh with ⟨hkvs, rfl, hhparse, hhnum⟩
      rcases pruneRawTable_ok parseDayLabel
          (fun t => decide (Int.fdiv (now - t) 86400 < 1)) dkvs hdparse with
        ⟨dres, hdres, hdsub⟩
      rcases pruneRawTable_ok parseHourLabel
          (fun t => decide (now - t < 3600)) hkvs hhparse with
        ⟨hres, hhres, hhsub⟩
      rcases dictGet_asNum_ok
          (rawBucket (initRawBucket dres (fmtDay now)) (fmtDay now)) sid
          (rawBucket_objOfNums dres (fmtDay now)
            (fun kv hkv => hdnum kv (hdsub kv hkv))) with ⟨nd, hnd⟩
      rcases dictGet_asNum_ok
          (rawBucket (initRawBucket hres (fmtHour now)) (fmtHour now)) sid
          (rawBucket_objOfNums hres (fmtHour now)
            (fun kv hkv => hhnum kv (hhsub kv hkv))) with ⟨nh, hnh⟩
      rw [check_rate_limit_json]
      simp only [hd, bind_ok_eq, Json.items, hdres, hh, hhres, hnd, hnh, Json.asNum]
      by_cases h15 : 15 ≤ nd
      · rw [if_pos h15]
        exact ⟨(false, daily_limit_message), rfl⟩
      · rw [if_neg h15]
        by_cases h5 : 5 ≤ nh
        · rw [if_pos h5]
          exact ⟨(false, hourly_limit_message), rfl⟩
        · rw [if_neg h5]
          exact ⟨(true, ""), rfl⟩

/-! ## Claim theorems -/

/-- Claim C1: after pruning, check_rate_limit reports the daily-limit message when the session count in the current daily bucket is at least 15, otherwise the hourly-limit message when the current hourly count is at least 5 (daily tested first), otherwise allowed; after k accepted generations with k below both limits the next check is allowed, the 6th in the same hour is refused with the hourly message, and the 16th in the same day with the daily message. -/
theorem C1_rate_limit_decision :
    (∀ file sid now, MAX_REQUESTS_PER_DAY ≤ daily_count file sid now →
       check_rate_limit file sid now = (false, daily_limit_message))
  ∧ (∀ file sid now, daily_count file sid now < MAX_REQUESTS_PER_DAY →
       MAX_REQUESTS_PER_HOUR ≤ hourly_count file sid now →
       check_rate_limit file sid now = (false, hourly_limit_message))
  ∧ (∀ file sid now, daily_count file sid now < MAX_REQUESTS_PER_DAY →
       hourly_count file sid now < MAX_REQUESTS_PER_HOUR →
       check_rate_limit file sid now = (true, ""))
  ∧ (∀ (sid : String) (now : Int) (k : Nat), k < 5 → k < 15 →
       check_rate_limit (repeatInc sid now k) sid now = (true, ""))
  ∧ (∀ (sid : String) (now : Int),
       check_rate_limit (repeatInc sid now 5) sid now = (false, hourly_limit_message))
  ∧ (∀ (sid : String) (now : Int) (ts : List Int), ts.length = 15 →
       (∀ t ∈ ts, Int.fdiv t 86400 = Int.fdiv now 86400) →
       check_rate_limit (incrAt sid ts) sid now = (false, daily_limit_message)) := by
  refine ⟨?_, ?_, ?_, ?_, ?_, ?_⟩
  · intro file sid now h
    simp [check_rate_limit, h]
  · intro file sid now h1 h2
    simp [check_rate_limit, Nat.not_le.mpr h1, h2]
  · intro file sid now h1 h2
    simp [check_rate_limit, Nat.not_le.mpr h1, Nat.not_le.mpr h2]
  · intro sid now k hk _
    rcases Nat.eq_zero_or_pos k with h0 | hpos
    · subst h0
      show check_rate_limit ⟨[], []⟩ sid now = (true, "")
      have h15 : ¬(MAX_REQUESTS_PER_DAY ≤ daily_count ⟨[], []⟩ sid now) := by
        rw [daily_count_empty]; simp [MAX_REQUESTS_PER_DAY]
      have h5 : ¬(MAX_REQUESTS_PER_HOUR ≤ hourly_count ⟨[], []⟩ sid now) := by
        rw [hourly_count_empty]; simp [MAX_REQUESTS_PER_HOUR]
      simp [check_rate_limit, h15, h5]
    · rw [repeatInc_shape sid now k hpos]
      have h15 : ¬(MAX_REQUESTS_PER_DAY ≤ k) := by
        simp [MAX_REQUESTS_PER_DAY]; omega
      have h5 : ¬(MAX_REQUESTS_PER_HOUR ≤ k) := by
        simp [MAX_REQUESTS_PER_HOUR]; omega
      simp [check_rate_limit, daily_count_single, hourly_count_single, h15, h5]
  · intro sid now
    rw [repeatInc_shape sid now 5 (by omega)]
    simp [check_rate_limit, daily_count_single, hourly_count_single,
      MAX_REQUESTS_PER_DAY, MAX_REQUESTS_PER_HOUR]
  · intro sid now ts hlen hday
    have hne : ts ≠ [] := by intro h; rw [h] at hlen; simp at hlen
    have hd : (incrAt sid ts).daily = [(Int.fdiv now 86400, [(sid, 15)])] := by
      rw [incrAt_same_day sid (Int.fdiv now 86400) ts hne hday, hlen]
    have hc : daily_count (incrAt sid ts) sid now = 15 :=
      daily_count_of_eq _ sid now 15 hd
    simp [check_rate_limit, hc, MAX_REQUESTS_PER_DAY]

/-- Concrete witness for C1 at session s and a fixed clock. -/
theorem C1_rate_limit_decision_witness :
    MAX_REQUESTS_PER_DAY ≤ daily_count ⟨[(19844, [("s", 20)])], []⟩ "s" 1714580000 ∧
    check_rate_limit ⟨[(19844, [("s", 20)])], []⟩ "s" 1714580000 = (false, daily_limit_message) ∧
    check_rate_limit (repeatInc "s" 1714580000 3) "s" 1714580000 = (true, "") ∧
    check_rate_limit (repeatInc "s" 1714580000 5) "s" 1714580000 = (false, hourly_limit_message) ∧
    check_rate_limit (incrAt "s" (List.replicate 15 1714580000)) "s" 1714580000
      = (false, daily_limit_message) :=
  ⟨by decide,
   C1_rate_limit_decision.1 ⟨[(19844, [("s", 20)])], []⟩ "s" 1714580000 (by decide),
   C1_rate_limit_decision.2.2.2.1 "s" 1714580000 3 (by decide) (by decide),
   C1_rate_limit_decision.2.2.2.2.1 "s" 1714580000,
   C1_rate_limit_decision.2.2.2.2.2 "s" 1714580000 (List.replicate 15 1714580000)
     (by decide)
     (fun t ht => by rw [List.eq_of_mem_replicate ht])⟩

/-- Claim C2: check_rate_limit prunes every bucket whose age exceeds its window - a daily bucket more than one day (86400 seconds) older than now and an hourly bucket more than 3600 seconds older than now are removed by pruning, and erasing such a bucket from the stored tables never changes the outcome of check_rate_limit. -/
theorem C2_pruning :
    (∀ (file : RateLimits) (now d : Int), 86400 < now - d * 86400 →
        containsKey (prune_daily file.daily now) d = false)
  ∧ (∀ (file : RateLimits) (now h : Int), 3600 < now - h * 3600 →
        containsKey (prune_hourly file.hourly now) h = false)
  ∧ (∀ (file : RateLimits) (sid : String) (now d : Int), 86400 < now - d * 86400 →
        check_rate_limit ⟨eraseKey file.daily d, file.hourly⟩ sid now
          = check_rate_limit file sid now)
  ∧ (∀ (file : RateLimits) (sid : String) (now h : Int), 3600 < now - h * 3600 →
        check_rate_limit ⟨file.daily, eraseKey file.hourly h⟩ sid now
          = check_rate_limit file sid now) := by
  refine ⟨?_, ?_, ?_, ?_⟩
  · intro file now d h
    exact old_daily_pruned file.daily now d h
  · intro file now h0 h
    exact old_hourly_pruned file.hourly now h0 h
  · intro file sid now d h
    exact check_congr _ _ sid now (prune_daily_erase file.daily now d h) rfl
  · intro file sid now h0 h
    exact check_congr _ _ sid now rfl (prune_hourly_erase file.hourly now h0 h)

/-- Concrete witness for C2: a store holding a stale daily and a stale hourly bucket. -/
theorem C2_pruning_witness :
    (86400 < (200000 : Int) - 0 * 86400) ∧
    containsKey (prune_daily (⟨[(0, [("s", 7)]), (2, [("s", 1)])], [(47, [("s", 2)])]⟩ : RateLimits).daily 200000) 0 = false ∧
    check_rate_limit ⟨eraseKey [(0, [("s", 7)]), (2, [("s", 1)])] 0, [(47, [("s", 2)])]⟩ "s" 200000
      = check_rate_limit ⟨[(0, [("s", 7)]), (2, [("s", 1)])], [(47, [("s", 2)])]⟩ "s" 200000 ∧
    containsKey (prune_hourly (⟨[(2, [("s", 1)])], [(47, [("s", 2)]), (55, [("s", 3)])]⟩ : RateLimits).hourly 200000) 47 = false :=
  ⟨by decide,
   C2_pruning.1 ⟨[(0, [("s", 7)]), (2, [("s", 1)])], [(47, [("s", 2)])]⟩ 200000 0 (by decide),
   C2_pruning.2.2.1 ⟨[(0, [("s", 7)]), (2, [("s", 1)])], [(47, [("s", 2)])]⟩ "s" 200000 0 (by decide),
   C2_pruning.2.1 ⟨[(2, [("s", 1)])], [(47, [("s", 2)]), (55, [("s", 3)])]⟩ 200000 47 (by decide)⟩

/-- Claim C3 counterexample: the store contents with the JSON-valid daily bucket label garbage are accepted by load_rate_limits, yet check_rate_limit raises ValueError on them (strptime of the label), so a rate-limiting operation can crash the request. -/
theorem C3_counterexample :
    load_rate_limits (some (some bad_store_json)) = bad_store_json ∧
    check_rate_limit_json bad_store_json "s" 1714580000
      = .error "ValueError: time data does not match format: garbage" :=
  ⟨rfl, rfl⟩

/-- Claim C3 (amended): loading the rate-limit tables when the backing file is missing or its read or parse fails returns the empty table pair, the empty pair is well formed, and on every well-formed store (the shape the service itself writes: parseable bucket labels mapping sessions to numeric counts) check_rate_limit returns without raising; contents with unparseable labels, however, make it raise. -/
theorem C3_load_tolerant :
    (load_rate_limits none = empty_store_json)
  ∧ (load_rate_limits (some none) = empty_store_json)
  ∧ (∀ (j : Json) (sid : String) (now : Int), wellFormedStore j = true →
       ∃ r, check_rate_limit_json j sid now = .ok r)
  ∧ wellFormedStore empty_store_json = true :=
  ⟨rfl, rfl, check_json_ok_of_wf, rfl⟩

/-- Concrete witness for the amended C3 on a well-formed store. -/
theorem C3_load_tolerant_witness :
    wellFormedStore wf_store_json = true ∧
    (∃ r, check_rate_limit_json wf_store_json "s" 1714580000 = .ok r) :=
  ⟨by rfl, C3_load_tolerant.2.2.1 wf_store_json "s" 1714580000 (by rfl)⟩

/-- Claim C4: when a request passes validation and the rate-limit check but the text-generation call fails, generate_email returns a 500 failure whose detail wraps the provider error, appends nothing to the email archive, and keeps the rate-limit increment applied before the generation attempt. -/
theorem C4_generation_failure :
    ∀ (w : World) (req : EmailGenerationRequest) (now : Int)
      (rand_session rand_id : Nat) (err : String),
      req.sender_company ≠ "" → req.target_company ≠ "" → req.person_name ≠ "" →
      req.role ≠ "" → req.email_subject ≠ "" →
      (check_rate_limit w.rate_limit_file (session_of req rand_session) now).1 = true →
      generate_email w req now rand_session rand_id (.error err)
        = (.error (500, "Error generating email: " ++ err),
           ⟨w.saved_emails,
            increment_rate_limit w.rate_limit_file (session_of req rand_session) now⟩) := by
  intro w req now rs rid err h1 h2 h3 h4 h5 hc
  rw [generate_email]
  rw [if_neg (by tauto)]
  rw [if_neg (by simp [hc])]

/-- Concrete witness for C4: a valid request against the empty store with a failing provider. -/
theorem C4_generation_failure_witness :
    (check_rate_limit empty_rate_limits (session_of req_w 77777) 1714580000).1 = true ∧
    generate_email ⟨[], empty_rate_limits⟩ req_w 1714580000 77777 1234 (.error "boom")
      = (.error (500, "Error generating email: boom"),
         ⟨[], increment_rate_limit empty_rate_limits (session_of req_w 77777) 1714580000⟩) :=
  ⟨by decide,
   C4_generation_failure ⟨[], empty_rate_limits⟩ req_w 1714580000 77777 1234 "boom"
     (by decide) (by decide) (by decide) (by decide) (by decide) (by decide)⟩

/-- Claim C5 counterexample: generating an email into the empty archive assigns id 1_1234, and after deleting it a second generation with the same random draw assigns the same id 1_1234 to a different email, so ids are not unique across the archive lifetime. -/
theorem C5_counterexample :
    (let w1 := (generate_email ⟨[], empty_rate_limits⟩ req_w 1714580000 77777 1234
        (.ok "hello body")).2
     let arch2 := (delete_email w1.saved_emails "1_1234").2
     let w2 := (generate_email ⟨arch2, w1.rate_limit_file⟩ req_w 1714583600 77777 1234
        (.ok "second body")).2
     w1.saved_emails.map SavedEmail.id = ["1_1234"]
       ∧ w2.saved_emails.map SavedEmail.id = ["1_1234"]
       ∧ w1.saved_emails ≠ w2.saved_emails) :=
  ⟨rfl, rfl, by decide⟩

/-- Claim C5 (amended): the id assigned at creation determines and is determined by the pair of archive size at creation and random draw, so ids are pairwise distinct across any deletion-free sequence of creations (sizes strictly grow); after a deletion the size can repeat and an id can be reused. -/
theorem C5_amended :
    (∀ (s1 s2 : List SavedEmail) (r1 r2 : Nat),
       new_email_id s1 r1 = new_email_id s2 r2 → s1.length = s2.length ∧ r1 = r2)
  ∧ (∀ (s1 s2 : List SavedEmail) (r1 r2 : Nat),
       s1.length ≠ s2.length → new_email_id s1 r1 ≠ new_email_id s2 r2) :=
  ⟨new_email_id_inj,
   fun s1 s2 r1 r2 hne h => hne (new_email_id_inj s1 s2 r1 r2 h).1⟩

/-- Concrete witness for the amended C5. -/
theorem C5_amended_witness :
    (([] : List SavedEmail).length = ([] : List SavedEmail).length ∧ (1234 : Nat) = 1234) ∧
    new_email_id [] 1111 ≠ new_email_id [e_w "1_9999" "A"] 1111 :=
  ⟨C5_amended.1 [] [] 1234 1234 rfl,
   C5_amended.2 [] [e_w "1_9999" "A"] 1111 1111 (by decide)⟩

/-- Claim C6 counterexample: on an archive holding two entries with the same id (a state reachable after a deletion, per the C5 counterexample), delete_email removes both matching entries, leaving size 0 instead of N-1. -/
theorem C6_counterexample :
    ([e_w "2_5555" "A", e_w "2_5555" "B"].length = 2) ∧
    ((delete_email [e_w "2_5555" "A", e_w "2_5555" "B"] "2_5555").2).length = 0 ∧
    (delete_email [e_w "2_5555" "A", e_w "2_5555" "B"] "2_5555").1
      = .ok "Email deleted successfully" :=
  ⟨rfl, rfl, rfl⟩

/-- Claim C6 (amended): delete_email reports not-found and leaves the archive unchanged when no entry has the id; when exactly one entry matches (in particular whenever ids are pairwise distinct) it removes exactly that entry, leaves size N-1, reports success, and an immediately repeated delete reports not-found; in general it removes every matching entry. -/
theorem C6_delete :
    (∀ (saved : List SavedEmail) (email_id : String),
       (∀ e ∈ saved, e.id ≠ email_id) →
       delete_email saved email_id = (.error (404, "Email not found"), saved))
  ∧ (∀ (saved : List SavedEmail) (email_id : String),
       (saved.filter (fun e => e.id == email_id)).length = 1 →
       (delete_email saved email_id).1 = .ok "Email deleted successfully"
       ∧ ((delete_email saved email_id).2).length = saved.length - 1
       ∧ (delete_email saved email_id).2 = saved.filter (fun e => !(e.id == email_id))
       ∧ (delete_email ((delete_email saved email_id).2) email_id).1
           = .error (404, "Email not found")) := by
  constructor
  · intro saved email_id h
    have hself : saved.filter (fun e => !(e.id == email_id)) = saved := by
      apply List.filter_eq_self.mpr
      intro e he
      simpa using h e he
    rw [delete_email, hself, if_pos rfl]
  · intro saved email_id h1
    have hlen : (saved.filter (fun e => !(e.id == email_id))).length
        = saved.length - 1 := by
      have := filter_lengths (fun e => e.id == email_id) saved
      omega
    have hge : 1 ≤ saved.length := by
      have := filter_lengths (fun e => e.id == email_id) saved
      omega
    have hne : ¬ ((saved.filter (fun e => !(e.id == email_id))).length = saved.length) := by
      omega
    have hfst : (delete_email saved email_id).1 = .ok "Email deleted successfully" := by
      rw [delete_email, if_neg hne]
    have hsnd : (delete_email saved email_id).2
        = saved.filter (fun e => !(e.id == email_id)) := by
      rw [delete_email]
      split_ifs
      all_goals rfl
    refine ⟨hfst, by rw [hsnd]; exact hlen, hsnd, ?_⟩
    rw [hsnd, delete_email]
    have hidem : (saved.filter (fun e => !(e.id == email_id))).filter
        (fun e => !(e.id == email_id)) = saved.filter (fun e => !(e.id == email_id)) := by
      apply List.filter_eq_self.mpr
      intro e he
      exact (List.mem_filter.mp he).2
    rw [hidem, if_pos rfl]

/-- Concrete witness for the amended C6 on a two-entry archive with distinct ids. -/
theorem C6_delete_witness :
    (delete_email [e_w "1_1" "A", e_w "2_2" "B"] "zz"
       = (.error (404, "Email not found"), [e_w "1_1" "A", e_w "2_2" "B"])) ∧
    (delete_email [e_w "1_1" "A", e_w "2_2" "B"] "1_1").1 = .ok "Email deleted successfully" ∧
    ((delete_email [e_w "1_1" "A", e_w "2_2" "B"] "1_1").2).length = 1 ∧
    (delete_email ((delete_email [e_w "1_1" "A", e_w "2_2" "B"] "1_1").2) "1_1").1
      = .error (404, "Email not found") :=
  ⟨C6_delete.1 [e_w "1_1" "A", e_w "2_2" "B"] "zz" (by decide),
   (C6_delete.2 [e_w "1_1" "A", e_w "2_2" "B"] "1_1" (by decide)).1,
   (C6_delete.2 [e_w "1_1" "A", e_w "2_2" "B"] "1_1" (by decide)).2.1,
   (C6_delete.2 [e_w "1_1" "A", e_w "2_2" "B"] "1_1" (by decide)).2.2.2⟩

/-- Claim C7: get_saved_emails clamps offset and limit to the archive length and returns the corresponding contiguous slice in archive order - for nonnegative offset and limit it equals drop offset then take limit, an offset at or beyond the length yields the empty list, and the result is always a sublist of the archive (no input errors). -/
theorem C7_pagination :
    (∀ (saved : List SavedEmail) (limit offset : Int), 0 ≤ offset → 0 ≤ limit →
        get_saved_emails saved limit offset
          = (saved.drop offset.toNat).take limit.toNat)
  ∧ (∀ (saved : List SavedEmail) (limit offset : Int),
        (saved.length : Int) ≤ offset → get_saved_emails saved limit offset = [])
  ∧ (∀ (saved : List SavedEmail) (limit offset : Int),
        (get_saved_emails saved limit offset).Sublist saved) := by
  refine ⟨?_, ?_, ?_⟩
  · intro saved limit offset ho hl
    simp only [get_saved_emails, pySlice]
    split_ifs with hb ha <;> try omega
    have e1 : (min (min offset (saved.length : Int)) (saved.length : Int)).toNat
        = min offset.toNat saved.length := by omega
    have e2 : (min (min (offset + limit) (saved.length : Int)) (saved.length : Int)).toNat
        = min (offset.toNat + limit.toNat) saved.length := by omega
    rw [e1, e2]
    exact take_drop_clamp saved offset.toNat limit.toNat
  · intro saved limit offset h
    simp only [get_saved_emails, pySlice]
    split_ifs with hb ha <;> try omega
    all_goals
      have e1 : (min (min offset (saved.length : Int)) (saved.length : Int)).toNat
          = saved.length := by omega
    all_goals rw [e1, List.drop_length]
    all_goals simp
  · intro saved limit offset
    simp only [get_saved_emails, pySlice]
    exact (List.take_sublist _ _).trans (List.drop_sublist _ _)

/-- Concrete witness for C7: an in-range page and an offset beyond the archive. -/
theorem C7_pagination_witness :
    (0 : Int) ≤ 1 ∧
    get_saved_emails [e_w "1" "A", e_w "2" "B", e_w "3" "C"] 1 1 = [e_w "2" "B"] ∧
    get_saved_emails [e_w "1" "A", e_w "2" "B", e_w "3" "C"] 50 5 = [] :=
  ⟨by decide,
   by
     have h := C7_pagination.1 [e_w "1" "A", e_w "2" "B", e_w "3" "C"] 1 1
       (by decide) (by decide)
     rw [h]
     decide,
   C7_pagination.2.1 [e_w "1" "A", e_w "2" "B", e_w "3" "C"] 50 5 (by decide)⟩

/-- Claim C8: top_companies lists distinct companies (at most 10) ranked by descending entry count, each listed count being the exact multiplicity of that company in the archive, with ties kept in first-appearance order by the stable sort; on companies A,B,A,C,B,A it returns (A,3),(B,2),(C,1), and on the tie instance B,A,A,B it returns (B,2),(A,2). -/
theorem C8_top_companies :
    (∀ (saved : List SavedEmail) (now : Int),
        ((get_analytics saved now).top_companies).length ≤ 10)
  ∧ (∀ (saved : List SavedEmail) (now : Int),
        List.Pairwise (fun a b => b.2 ≤ a.2) ((get_analytics saved now).top_companies))
  ∧ (∀ (saved : List SavedEmail) (now : Int),
        (((get_analytics saved now).top_companies).map Prod.fst).Nodup)
  ∧ (∀ (saved : List SavedEmail) (now : Int) (c : String) (k : Nat),
        (c, k) ∈ (get_analytics saved now).top_companies →
        k = (saved.map (fun e => e.company)).count c)
  ∧ ((get_analytics [e_w "1" "A", e_w "2" "B", e_w "3" "A", e_w "4" "C", e_w "5" "B",
        e_w "6" "A"] 1714580000).top_companies = [("A", 3), ("B", 2), ("C", 1)])
  ∧ ((get_analytics [e_w "1" "B", e_w "2" "A", e_w "3" "A", e_w "4" "B"]
        1714580000).top_companies = [("B", 2), ("A", 2)]) := by
  refine ⟨?_, ?_, ?_, ?_, by rfl, by rfl⟩
  · intro saved now
    rw [get_analytics_eq]
    exact List.length_take_le _ _
  · intro saved now
    rw [get_analytics_eq]
    exact List.Pairwise.sublist (List.take_sublist _ _) (sortByCountDesc_sorted _)
  · intro saved now
    rw [get_analytics_eq]
    have hnd : ((sortByCountDesc (tally (saved.map (fun e => e.company)))).map
        Prod.fst).Nodup :=
      ((sortByCountDesc_perm _).map Prod.fst).nodup_iff.mpr (tally_keys_nodup _)
    exact List.Nodup.sublist
      (List.Sublist.map Prod.fst (List.take_sublist _ _)) hnd
  · intro saved now c k hm
    rw [get_analytics_eq] at hm
    have h1 : (c, k) ∈ sortByCountDesc (tally (saved.map (fun e => e.company))) :=
      List.Sublist.mem hm (List.take_sublist _ _)
    have h2 : (c, k) ∈ tally (saved.map (fun e => e.company)) :=
      (sortByCountDesc_perm _).mem_iff.mp h1
    have h3 := mem_assoc_getD _ c k 0 (tally_keys_nodup _) h2
    rw [← h3, tally_getD]

/-- Concrete witness for C8: the count listed for company A is its multiplicity. -/
theorem C8_top_companies_witness :
    (("A", 3) ∈ (get_analytics [e_w "1" "A", e_w "2" "B", e_w "3" "A", e_w "4" "C",
        e_w "5" "B", e_w "6" "A"] 1714580000).top_companies) ∧
    (3 : Nat) = ([e_w "1" "A", e_w "2" "B", e_w "3" "A", e_w "4" "C", e_w "5" "B",
        e_w "6" "A"].map (fun e => e.company)).count "A" :=
  ⟨by decide,
   C8_top_companies.2.2.2.1 [e_w "1" "A", e_w "2" "B", e_w "3" "A", e_w "4" "C",
     e_w "5" "B", e_w "6" "A"] 1714580000 "A" 3 (by decide)⟩

/-- Claim C9: get_analytics never raises on a malformed stored timestamp - total_emails always equals the archive size and avg_length always divides the total word count, while an entry whose date fails to parse is excluded from weekly_emails and email_over_time yet still counted in total_emails and in the avg_length word totals. -/
theorem C9_malformed_dates :
    (∀ (saved : List SavedEmail) (now : Int),
        (get_analytics saved now).total_emails = saved.length)
  ∧ (∀ (saved : List SavedEmail) (now : Int),
        (get_analytics saved now).avg_length = total_words saved / max 1 saved.length)
  ∧ (∀ (saved : List SavedEmail) (now : Int) (e : SavedEmail),
        parseMinuteLabel e.date = none →
        (get_analytics (saved ++ [e]) now).weekly_emails
            = (get_analytics saved now).weekly_emails
        ∧ (get_analytics (saved ++ [e]) now).email_over_time
            = (get_analytics saved now).email_over_time
        ∧ (get_analytics (saved ++ [e]) now).total_emails
            = (get_analytics saved now).total_emails + 1
        ∧ total_words (saved ++ [e]) = total_words saved + wordCount e.content) := by
  refine ⟨?_, ?_, ?_⟩
  · intro saved now
    rw [get_analytics_eq]
  · intro saved now
    rw [get_analytics_eq]
  · intro saved now e hparse
    rw [get_analytics_eq, get_analytics_eq]
    refine ⟨?_, ?_, ?_, ?_⟩
    · show List.countP _ (saved ++ [e]) = List.countP _ saved
      rw [List.countP_append]
      have h0 : List.countP (fun e2 =>
          match parseMinuteLabel e2.date with
          | some t => decide (now - 7 * 86400 < t)
          | none => false) [e] = 0 := by
        simp [List.countP, List.countP.go, hparse]
      rw [h0]
      simp
    · show tally (List.filterMap _ (saved ++ [e])) = tally (List.filterMap _ saved)
      rw [List.filterMap_append]
      have h0 : List.filterMap (fun e2 => (parseMinuteLabel e2.date).map
          (fun t => fmtDay t)) [e] = [] := by
        simp [hparse]
      rw [h0, List.append_nil]
    · simp
    · rw [total_words, total_words, List.map_append, List.sum_append]
      simp [total_words]

/-- Concrete witness for C9: appending an entry with an unparseable date. -/
theorem C9_malformed_dates_witness :
    parseMinuteLabel e_bad.date = none ∧
    (get_analytics [e_w "1" "A", e_bad] 1714580000).weekly_emails
      = (get_analytics [e_w "1" "A"] 1714580000).weekly_emails ∧
    (get_analytics [e_w "1" "A", e_bad] 1714580000).total_emails
      = (get_analytics [e_w "1" "A"] 1714580000).total_emails + 1 :=
  ⟨by decide,
   (C9_malformed_dates.2.2 [e_w "1" "A"] 1714580000 e_bad (by decide)).1,
   (C9_malformed_dates.2.2 [e_w "1" "A"] 1714580000 e_bad (by decide)).2.2.1⟩

/-- Claim C10: check_rate_limit never writes the persisted store (the backing file after the call is the file before it), increment_rate_limit preserves every existing bucket because it saves without pruning, and a bucket old enough to be pruned from the in-memory view of check is still present in the file that increment persists. -/
theorem C10_frame :
    (∀ (file : RateLimits) (sid : String) (now : Int),
        (check_rate_limit_st file sid now).2 = file)
  ∧ (∀ (file : RateLimits) (sid : String) (now d : Int),
        containsKey file.daily d = true →
        containsKey (increment_rate_limit file sid now).daily d = true)
  ∧ (∀ (file : RateLimits) (sid : String) (now h : Int),
        containsKey file.hourly h = true →
        containsKey (increment_rate_limit file sid now).hourly h = true)
  ∧ (∀ (file : RateLimits) (sid : String) (now d : Int), 86400 < now - d * 86400 →
        containsKey file.daily d = true →
        containsKey (prune_daily file.daily now) d = false ∧
        containsKey
          (increment_rate_limit (check_rate_limit_st file sid now).2 sid now).daily d
          = true) := by
  refine ⟨fun _ _ _ => rfl, ?_, ?_, ?_⟩
  · intro file sid now d h
    exact containsKey_table_incr file.daily sid _ d h
  · intro file sid now h0 h
    exact containsKey_table_incr file.hourly sid _ h0 h
  · intro file sid now d hold h
    exact ⟨old_daily_pruned file.daily now d hold,
           containsKey_table_incr file.daily sid _ d h⟩

/-- Concrete witness for C10 on a store with one stale daily bucket. -/
theorem C10_frame_witness :
    (check_rate_limit_st (⟨[(0, [("s", 7)])], [(47, [("s", 2)])]⟩ : RateLimits) "s" 200000).2
      = ⟨[(0, [("s", 7)])], [(47, [("s", 2)])]⟩ ∧
    containsKey (prune_daily [(0, [("s", 7)])] 200000) 0 = false ∧
    containsKey
      (increment_rate_limit
        (check_rate_limit_st (⟨[(0, [("s", 7)])], [(47, [("s", 2)])]⟩ : RateLimits) "s" 200000).2
        "s" 200000).daily 0 = true :=
  ⟨C10_frame.1 ⟨[(0, [("s", 7)])], [(47, [("s", 2)])]⟩ "s" 200000,
   (C10_frame.2.2.2 ⟨[(0, [("s", 7)])], [(47, [("s", 2)])]⟩ "s" 200000 0 (by decide) (by decide)).1,
   (C10_frame.2.2.2 ⟨[(0, [("s", 7)])], [(47, [("s", 2)])]⟩ "s" 200000 0 (by decide) (by decide)).2⟩

end ColdEmail
